import Mathlib

/-
  Verification of the chart-testing orchestration engine
  (shallow embedding of pkg/chart/chart.go).

  External collaborators (the Git, Helm, Kubectl, Linter, DirectoryLister,
  ChartUtils and AccountValidator interfaces of chart.go) are modelled as
  outcome functions bundled in an environment record `Env`.  A fallible Go
  call returning `error` becomes `Option String` (`none` = nil error); a Go
  call returning `(value, error)` becomes `Except String value`.  Side
  effects that the Go code only prints (fmt.Println, diagnostics) have no
  observable counterpart here; cleanup closures (DeleteRelease,
  DeleteNamespace, RemoveWorkingTree) are likewise pure side effects and are
  dropped.  Go slices become `List`, the one Go map used (repoArgs) becomes
  an association list with overwrite-on-insert.
-/

namespace ChartTesting

/- ------------------------------------------------------------------ -/
/- Go standard-library helpers used by chart.go                        -/
/- ------------------------------------------------------------------ -/

/-- Split a string at every character satisfying `p`, keeping empty parts
(the behaviour of Go `strings.Split` for a one-character separator). -/
def splitPred (p : Char → Bool) (s : String) : List String :=
  (s.toList.foldr
    (fun c acc =>
      match acc with
      | cur :: done => if p c then [] :: cur :: done else (c :: cur) :: done
      | [] => [[c]])
    [[]]).map (fun cs => String.mk cs)

/-- Go `strings.Split(s, sep)` for a one-character separator. -/
def goSplit (sep : Char) (s : String) : List String :=
  splitPred (fun c => c == sep) s

/-- Join a list of strings with a separator (Go `strings.Join`). -/
def joinSep (sep : String) : List String → String
  | [] => ""
  | [x] => x
  | x :: y :: xs => x ++ sep ++ joinSep sep (y :: xs)

/-- Go `strings.SplitN(s, sep, n)` for a one-character separator and n ≥ 1:
at most `n` substrings, the last one holding the unsplit remainder. -/
def goSplitN (s : String) (sep : Char) (n : Nat) : List String :=
  let parts := goSplit sep s
  if parts.length ≤ n then parts
  else parts.take (n - 1) ++ [joinSep (String.mk [sep]) (parts.drop (n - 1))]

/-- Go `strings.Fields`: split around whitespace, dropping empty parts. -/
def goFields (s : String) : List String :=
  (splitPred Char.isWhitespace s).filter (fun x => x != "")

/-- Go `path.Join` of two relative segments (no cleaning needed for the
segment shapes chart.go builds). -/
def pathJoin (a b : String) : String :=
  if a = "" then b else a ++ "/" ++ b

/-- Go `path.Base` restricted to the slash-separated relative paths that
chart.go passes to it. -/
def pathBase (p : String) : String :=
  if p = "" then "."
  else
    match (goSplit '/' p).getLast? with
    | some x => x
    | none => "."

/-- Go `filepath.Dir` restricted to slash-separated relative paths without
duplicate or trailing slashes (the shapes produced by git diff listings).
`filepath.ToSlash` is the identity on such paths and is dropped. -/
def filepathDir (p : String) : String :=
  match (goSplit '/' p).dropLast with
  | [] => "."
  | ps => joinSep "/" ps

/-- Modelled from the spec: `util.StringSliceContains` is not under src/;
per the spec it is the membership test used for the excluded-name set and
for first-seen deduplication. -/
def StringSliceContains (slice : List String) (s : String) : Bool :=
  slice.any (fun x => x == s)

/-- Insert with overwrite into an association list (Go map assignment). -/
def mapInsert (m : List (String × List String)) (k : String) (v : List String) :
    List (String × List String) :=
  (k, v) :: m.filter (fun p => p.1 != k)

/-- Lookup in an association list, defaulting to the empty list
(a missing key in a Go `map[string][]string` reads as nil). -/
def mapLookup (m : List (String × List String)) (k : String) : List String :=
  match m.find? (fun p => p.1 == k) with
  | some p => p.2
  | none => []

/- ------------------------------------------------------------------ -/
/- Data model                                                          -/
/- ------------------------------------------------------------------ -/

/-- One maintainer entry of a Chart.yaml (only the name is consulted). -/
structure Maintainer where
  name : String
deriving DecidableEq

/-- The fields of a parsed Chart.yaml that chart.go consults. -/
structure ChartYaml where
  version : String
  deprecated : Bool
  maintainers : List Maintainer
deriving DecidableEq

/-- TestResult holds test results for a specific chart (chart.go). -/
structure TestResult where
  chart : String
  error : Option String
deriving DecidableEq

/-- Outcome of running a Go function that can panic: either a runtime
crash (index out of range) or a normal return value. -/
inductive RunOutcome (α : Type) where
  | crash (msg : String)
  | done (val : α)
deriving DecidableEq

/- ------------------------------------------------------------------ -/
/- Semantic versions (modelled from the spec)                          -/
/- ------------------------------------------------------------------ -/

/-- A parsed semantic version major.minor.patch. -/
structure SemVer where
  major : Nat
  minor : Nat
  patch : Nat
deriving DecidableEq

/-- Parse a decimal numeral (no sign, at least one digit). -/
def parseNat (s : String) : Option Nat :=
  match s.toList with
  | [] => none
  | cs =>
    if cs.all Char.isDigit then
      some (cs.foldl (fun a c => a * 10 + (c.toNat - 48)) 0)
    else none

/-- Modelled from the spec: semantic-version parsing.  The version parser
lives in pkg/util, which is not under src/; the spec (4.2) says both
checks parse the manifest versions as semantic versions and treat
malformed version strings as a hard error. -/
def parseSemVer (s : String) : Except String SemVer :=
  match goSplit '.' s with
  | [a, b, c] =>
    match parseNat a, parseNat b, parseNat c with
    | some ma, some mi, some pa => .ok ⟨ma, mi, pa⟩
    | _, _, _ => .error ("Invalid semantic version: " ++ s)
  | _ => .error ("Invalid semantic version: " ++ s)

/-- Lexicographic three-way comparison of semantic versions:
-1 when a < b, 0 when equal, 1 when a > b. -/
def compareSemVer (a b : SemVer) : Int :=
  if a.major ≠ b.major then (if a.major < b.major then -1 else 1)
  else if a.minor ≠ b.minor then (if a.minor < b.minor then -1 else 1)
  else if a.patch ≠ b.patch then (if a.patch < b.patch then -1 else 1)
  else 0

/-- Modelled from the spec: `util.CompareVersions` is not under src/;
per the spec (4.2) it parses both versions as semantic versions (malformed
strings are a hard error) and compares them. -/
def CompareVersions (a b : String) : Except String Int :=
  match parseSemVer a, parseSemVer b with
  | .ok va, .ok vb => .ok (compareSemVer va vb)
  | .error e, _ => .error e
  | _, .error e => .error e

/-- Modelled from the spec: `util.BreakingChangeAllowed` is not under src/;
per the spec (4.2) a major-version change, or for versions below 1.0.0 a
minor-version change, is a breaking change allowed to skip upgrade
testing; any other increment is not; malformed versions are a hard
error. -/
def BreakingChangeAllowed (oldV newV : String) : Bool × Option String :=
  match parseSemVer oldV, parseSemVer newV with
  | .ok o, .ok n =>
    if o.major ≠ n.major then (true, none)
    else if o.major = 0 ∧ o.minor ≠ n.minor then (true, none)
    else (false, none)
  | .error e, _ => (false, some e)
  | _, .error e => (false, some e)

/-- The strict semantic-version order of the spec ("new is strictly
greater than old"): lexicographic on (major, minor, patch). -/
def semverLt (a b : SemVer) : Prop :=
  a.major < b.major ∨
    (a.major = b.major ∧
      (a.minor < b.minor ∨ (a.minor = b.minor ∧ a.patch < b.patch)))

/- ------------------------------------------------------------------ -/
/- First-seen deduplication (statement of the spec for claim C4)       -/
/- ------------------------------------------------------------------ -/

/-- Fold a list into an accumulator, appending each element not yet
present; keeps the first occurrence of every element in order. -/
def dedupInto (acc : List String) : List String → List String
  | [] => acc
  | x :: xs =>
    if StringSliceContains acc x then dedupInto acc xs
    else dedupInto (acc ++ [x]) xs

/-- Deduplicate preserving first-seen order (the spec wording for the
change-detection result). -/
def dedupFirstSeen (l : List String) : List String :=
  dedupInto [] l

/- ------------------------------------------------------------------ -/
/- Configuration and environment                                       -/
/- ------------------------------------------------------------------ -/

/-- The fields of config.Configuration that chart.go reads.
`nspace` stands for the Go field `Namespace` (a Lean keyword). -/
structure Config where
  processAllCharts : Bool
  charts : List String
  chartDirs : List String
  excludedCharts : List String
  chartRepos : List String
  helmRepoExtraArgs : List String
  upgrade : Bool
  nspace : String
  releaseLabel : String
  buildId : String
  remote : String
  targetBranch : String
  checkVersionIncrement : Bool
  validateChartSchema : Bool
  validateYaml : Bool
  validateMaintainers : Bool
  chartYamlSchema : String
  lintConf : String

/-- The Testing struct of chart.go: the configuration snapshot plus the
observable outcomes of every collaborator call.  Each interface method
becomes a function from its arguments to its returned error/value. -/
structure Env where
  config : Config
  -- Helm interface
  helmInit : Option String
  addRepo : String → String → List String → Option String
  buildDependencies : String → Option String
  lintWithValues : String → String → Option String
  installWithValues : String → String → String → String → Option String
  helmUpgrade : String → String → Option String
  helmTest : String → Bool → Option String
  -- Git interface
  fileExistsOnBranch : String → String → String → Bool
  gitShow : String → String → String → Except String String
  addWorkingTree : Option String
  validateRepository : Option String
  mergeBase : String → String → Except String String
  listChangedFilesInDirs : String → List String → Except String (List String)
  getUrlForRemote : String → Except String String
  -- Kubectl interface (only the call whose error is consulted)
  waitForDeployments : String → String → Option String
  -- Linter interface
  yamale : String → String → Option String
  yamlLint : String → String → Option String
  -- DirectoryLister interface
  listChildDirs : String → (String → Bool) → Except String (List String)
  -- ChartUtils interface
  lookupChartDir : List String → String → Except String String
  readChartYaml : String → Except String ChartYaml
  -- util externals treated as collaborators (spec 6: ManifestReader,
  -- InstallIdentity generation)
  readChartYamlBytes : String → Except String ChartYaml
  validateAccount : String → String → Option String
  glob : String → List String
  createInstallParams : String → String → String × String

/- ------------------------------------------------------------------ -/
/- chart.go, translated                                                -/
/- ------------------------------------------------------------------ -/

/-- The single well-known previous-revision worktree path (chart.go:192). -/
def ctPreviousRevisionTree : String := "ct_previous_revision"

/-- chart.go:196 computePreviousRevisionPath. -/
def computePreviousRevisionPath (dir : String) : String :=
  pathJoin ctPreviousRevisionTree dir

/-- chart.go:561 FindValuesFilesForCI: glob chart/ci/*-values.yaml. -/
def FindValuesFilesForCI (env : Env) (chart : String) : List String :=
  env.glob (pathJoin chart "ci/*-values.yaml")

/-- chart.go:567 computeMergeBase. -/
def computeMergeBase (env : Env) : Except String String :=
  match env.validateRepository with
  | some _ => .error "Must be in a git repository"
  | none => env.mergeBase (env.config.remote ++ "/" ++ env.config.targetBranch) "HEAD"

/-- chart.go:686 GetOldChartVersion: empty string when the chart does not
exist on the target branch. -/
def GetOldChartVersion (env : Env) (chart : String) : Except String String :=
  let chartYamlFile := pathJoin chart "Chart.yaml"
  if env.fileExistsOnBranch chartYamlFile env.config.remote env.config.targetBranch then
    match env.gitShow chartYamlFile env.config.remote env.config.targetBranch with
    | .error e => .error ("Error reading old Chart.yaml: " ++ e)
    | .ok contents =>
      match env.readChartYamlBytes contents with
      | .error e => .error ("Error reading old chart version: " ++ e)
      | .ok cy => .ok cy.version
  else .ok ""

/-- chart.go:709 GetNewChartVersion. -/
def GetNewChartVersion (env : Env) (chart : String) : Except String String :=
  match env.readChartYaml chart with
  | .error e => .error ("Error reading new chart version: " ++ e)
  | .ok cy => .ok cy.version

/-- chart.go:634 CheckVersionIncrement. -/
def CheckVersionIncrement (env : Env) (chart : String) : Option String :=
  match GetOldChartVersion env chart with
  | .error e => some e
  | .ok oldVersion =>
    if oldVersion = "" then none
    else
      match GetNewChartVersion env chart with
      | .error e => some e
      | .ok newVersion =>
        match CompareVersions oldVersion newVersion with
        | .error e => some e
        | .ok result =>
          if result ≥ 0 then some "Chart version not ok. Needs a version bump!"
          else none

/-- chart.go:667 checkBreakingChangeAllowed. -/
def checkBreakingChangeAllowed (env : Env) (chart : String) : Bool × Option String :=
  match GetOldChartVersion env chart with
  | .error e => (false, some e)
  | .ok oldVersion =>
    if oldVersion = "" then (true, some "chart has no previous revision")
    else
      match GetNewChartVersion env chart with
      | .error e => (false, some e)
      | .ok newVersion => BreakingChangeAllowed oldVersion newVersion

/-- The maintainer loop of ValidateMaintainers (chart.go:743). -/
def validateMaintainersLoop (validate : String → String → Option String)
    (repoUrl : String) : List Maintainer → Option String
  | [] => none
  | m :: rest =>
    match validate repoUrl m.name with
    | some e => some e
    | none => validateMaintainersLoop validate repoUrl rest

/-- chart.go:719 ValidateMaintainers.  (Error texts carry no apostrophes
here; only their presence matters.) -/
def ValidateMaintainers (env : Env) (chart : String) : Option String :=
  match env.readChartYaml chart with
  | .error e => some e
  | .ok chartYaml =>
    if chartYaml.deprecated then
      if chartYaml.maintainers.length > 0 then
        some "Deprecated chart must not have maintainers"
      else none
    else if chartYaml.maintainers.length = 0 then
      some "Chart does not have maintainers"
    else
      match env.getUrlForRemote env.config.remote with
      | .error e => some e
      | .ok repoUrl => validateMaintainersLoop env.validateAccount repoUrl chartYaml.maintainers

/-- chart.go:518 generateInstallConfig, returning (namespace, release,
releaseSelector); the cleanup closure is pure side effect and dropped.
When config.Namespace is empty the selector keeps its zero value "". -/
def generateInstallConfig (env : Env) (chart : String) : String × String × String :=
  if env.config.nspace ≠ "" then
    let p := env.createInstallParams chart env.config.buildId
    (env.config.nspace, p.1, env.config.releaseLabel ++ "=" ++ p.1)
  else
    let p := env.createInstallParams chart env.config.buildId
    (p.2, p.1, "")

/-- chart.go:508 testRelease. -/
def testRelease (env : Env) (release ns releaseSelector : String)
    (cleanupHelmTests : Bool) : Option String :=
  match env.waitForDeployments ns releaseSelector with
  | some e => some e
  | none => env.helmTest release cleanupHelmTests

/-- The per-values-file body of doInstall (the anonymous fun,
chart.go:442). -/
def doInstallStep (env : Env) (chart valuesFile : String) : Option String :=
  match generateInstallConfig env chart with
  | (ns, release, releaseSelector) =>
    match env.installWithValues chart valuesFile ns release with
    | some e => some e
    | none => testRelease env release ns releaseSelector false

/-- The values-file loop of doInstall: first failing step aborts. -/
def doInstallLoop (step : String → Option String) : List String → Option String
  | [] => none
  | vf :: rest =>
    match step vf with
    | some e => some e
    | none => doInstallLoop step rest

/-- The implicit single-entry values list: an empty override set is padded
with one zero value (chart.go:431, 463, 359). -/
def effectiveValues (valuesFiles : List String) : List String :=
  if valuesFiles.isEmpty then [""] else valuesFiles

/-- chart.go:426 doInstall. -/
def doInstall (env : Env) (chart : String) : Option String :=
  doInstallLoop (doInstallStep env chart) (effectiveValues (FindValuesFilesForCI env chart))

/-- The per-values-file body of doUpgrade (the anonymous fun,
chart.go:473): InstallOld → TestOld → Upgrade → TestNew with
skip-vs-propagate on the first two stages. -/
def doUpgradeStep (env : Env) (oldChart : String) (oldChartMustPass : Bool)
    (valuesFile : String) : Option String :=
  match generateInstallConfig env oldChart with
  | (ns, release, releaseSelector) =>
    match env.installWithValues oldChart valuesFile ns release with
    | some e => if oldChartMustPass then some e else none
    | none =>
      match testRelease env release ns releaseSelector true with
      | some e => if oldChartMustPass then some e else none
      | none =>
        match env.helmUpgrade oldChart release with
        | some e => some e
        | none => testRelease env release ns releaseSelector false

/-- The values-file loop of doUpgrade: first failing step aborts. -/
def doUpgradeLoop (step : String → Option String) : List String → Option String
  | [] => none
  | vf :: rest =>
    match step vf with
    | some e => some e
    | none => doUpgradeLoop step rest

/-- chart.go:460 doUpgrade; `newChart` is only printed by the Go code. -/
def doUpgrade (env : Env) (oldChart newChart : String) (oldChartMustPass : Bool) :
    Option String :=
  let _ := newChart
  doUpgradeLoop (doUpgradeStep env oldChart oldChartMustPass)
    (effectiveValues (FindValuesFilesForCI env oldChart))

/-- chart.go:406 UpgradeChart. -/
def UpgradeChart (env : Env) (chart : String) : TestResult :=
  let r := checkBreakingChangeAllowed env chart
  if r.1 then { chart := chart, error := none }
  else
    match r.2 with
    | some e => { chart := chart, error := some e }
    | none =>
      { chart := chart
        error := doUpgrade env (computePreviousRevisionPath chart) chart false }

/-- chart.go:378 InstallChart (valuesFiles is accepted but unused by the
Go method as well; doInstall re-globs them). -/
def InstallChart (env : Env) (chart : String) (valuesFiles : List String) : TestResult :=
  let _ := valuesFiles
  if env.config.upgrade then
    let result := UpgradeChart env chart
    if result.error.isSome then result
    else
      match doUpgrade env chart chart true with
      | some e => { chart := chart, error := some e }
      | none => { chart := chart, error := doInstall env chart }
  else { chart := chart, error := doInstall env chart }

/-- The yaml-file loop of LintChart (chart.go:343). -/
def yamlLintLoop (lint : String → String → Option String) (conf : String) :
    List String → Option String
  | [] => none
  | f :: rest =>
    match lint f conf with
    | some e => some e
    | none => yamlLintLoop lint conf rest

/-- The values-file lint loop of LintChart (chart.go:363). -/
def lintValuesLoop (lint : String → String → Option String) (chart : String) :
    List String → Option String
  | [] => none
  | vf :: rest =>
    match lint chart vf with
    | some e => some e
    | none => lintValuesLoop lint chart rest

/-- chart.go:319 LintChart. -/
def LintChart (env : Env) (chart : String) (valuesFiles : List String) : TestResult :=
  let chartYamlPath := pathJoin chart "Chart.yaml"
  let valuesYamlPath := pathJoin chart "values.yaml"
  match (if env.config.checkVersionIncrement then CheckVersionIncrement env chart else none) with
  | some e => { chart := chart, error := some e }
  | none =>
    match (if env.config.validateChartSchema
           then env.yamale chartYamlPath env.config.chartYamlSchema else none) with
    | some e => { chart := chart, error := some e }
    | none =>
      match (if env.config.validateYaml
             then yamlLintLoop env.yamlLint env.config.lintConf
                    (chartYamlPath :: valuesYamlPath :: valuesFiles) else none) with
      | some e => { chart := chart, error := some e }
      | none =>
        match (if env.config.validateMaintainers then ValidateMaintainers env chart else none) with
        | some e => { chart := chart, error := some e }
        | none =>
          { chart := chart
            error := lintValuesLoop env.lintWithValues chart (effectiveValues valuesFiles) }

/-- chart.go:540 LintAndInstallChart. -/
def LintAndInstallChart (env : Env) (chart : String) (valuesFiles : List String) : TestResult :=
  let result := LintChart env chart valuesFiles
  if result.error.isSome then result
  else InstallChart env chart valuesFiles

/-- The parent-directory loop of ReadAllChartDirectories (chart.go:618). -/
def readAllLoop (lister : String → (String → Bool) → Except String (List String))
    (test : String → Bool) : List String → Except String (List String)
  | [] => .ok []
  | d :: rest =>
    match lister d test with
    | .error e => .error ("Error reading chart directories: " ++ e)
    | .ok dirs =>
      match readAllLoop lister test rest with
      | .error e => .error e
      | .ok more => .ok (dirs ++ more)

/-- chart.go:614 ReadAllChartDirectories. -/
def ReadAllChartDirectories (env : Env) : Except String (List String) :=
  readAllLoop env.listChildDirs
    (fun dir =>
      (match env.lookupChartDir env.config.chartDirs dir with
       | .ok _ => true
       | .error _ => false)
      && !(StringSliceContains env.config.excludedCharts (pathBase dir)))
    env.config.chartDirs

/-- The changed-file loop of ComputeChangedChartDirectories
(chart.go:591): skip files with fewer than two path segments or an
excluded second segment; resolve the rest via LookupChartDir; a failed
lookup is only a printed diagnostic; append unseen chart roots. -/
def changedDirsLoop (excluded : List String)
    (lookup : List String → String → Except String String) (chartDirs : List String) :
    List String → List String → List String
  | [], acc => acc
  | file :: rest, acc =>
    match goSplitN file '/' 3 with
    | _ :: second :: _ =>
      if StringSliceContains excluded second then
        changedDirsLoop excluded lookup chartDirs rest acc
      else
        match lookup chartDirs (filepathDir file) with
        | .ok chartDir =>
          if StringSliceContains acc chartDir then
            changedDirsLoop excluded lookup chartDirs rest acc
          else changedDirsLoop excluded lookup chartDirs rest (acc ++ [chartDir])
        | .error _ => changedDirsLoop excluded lookup chartDirs rest acc
    | _ => changedDirsLoop excluded lookup chartDirs rest acc

/-- chart.go:577 ComputeChangedChartDirectories. -/
def ComputeChangedChartDirectories (env : Env) : Except String (List String) :=
  match computeMergeBase env with
  | .error e => .error e
  | .ok mb =>
    match env.listChangedFilesInDirs mb env.config.chartDirs with
    | .error e => .error ("Error creating diff: " ++ e)
    | .ok allChangedChartFiles =>
      .ok (changedDirsLoop env.config.excludedCharts env.lookupChartDir
             env.config.chartDirs allChangedChartFiles [])

/-- chart.go:550 FindChartsToBeProcessed. -/
def FindChartsToBeProcessed (env : Env) : Except String (List String) :=
  if env.config.processAllCharts then ReadAllChartDirectories env
  else if env.config.charts.length > 0 then .ok env.config.charts
  else ComputeChangedChartDirectories env

/-- The HelmRepoExtraArgs loop of processCharts (chart.go:225):
`repoSlice[1]` panics when the entry holds no separator. -/
def repoArgsLoopGo : List String → List (String × List String) →
    RunOutcome (List (String × List String))
  | [], m => .done m
  | repo :: rest, m =>
    match goSplitN repo '=' 2 with
    | name :: value :: _ => repoArgsLoopGo rest (mapInsert m name (goFields value))
    | _ => .crash "runtime error: index out of range"

/-- The ChartRepos loop of processCharts (chart.go:232): same panic on a
missing separator; an AddRepo error aborts with a wrapped error. -/
def addReposLoop (addRepo : String → String → List String → Option String)
    (repoArgs : List (String × List String)) : List String → RunOutcome (Option String)
  | [] => .done none
  | repo :: rest =>
    match goSplitN repo '=' 2 with
    | name :: url :: _ =>
      match addRepo name url (mapLookup repoArgs name) with
      | some e => .done (some ("Error adding repo: " ++ name ++ "=" ++ url ++ ": " ++ e))
      | none => addReposLoop addRepo repoArgs rest
    | _ => .crash "runtime error: index out of range"

/-- The per-chart loop of processCharts (chart.go:265): a dependency-build
failure returns (nil, error) immediately; otherwise the action result is
appended and the overall-success flag updated. -/
def chartsLoop (buildDeps : String → Option String) (valuesf : String → List String)
    (action : String → List String → TestResult) :
    List String → List TestResult → Bool → List TestResult × Option String
  | [], results, success =>
    (results, if success then none else some "Error processing charts")
  | chart :: rest, results, success =>
    match buildDeps chart with
    | some e => ([], some ("Error building dependencies for chart " ++ chart ++ ": " ++ e))
    | none =>
      let result := action chart (valuesf chart)
      chartsLoop buildDeps valuesf action rest (results ++ [result])
        (success && result.error.isNone)

/-- chart.go:200 processCharts.  In the Upgrade branch the error returned
by git.AddWorkingTree is discarded by the Go code (the call result is not
bound) and BuildDependencies errors for previous-revision paths are only
printed, so neither is consulted here. -/
def processCharts (env : Env) (action : String → List String → TestResult) :
    RunOutcome (List TestResult × Option String) :=
  match FindChartsToBeProcessed env with
  | .error e => .done ([], some ("Error identifying charts to process: " ++ e))
  | .ok charts =>
    if charts.isEmpty then .done ([], none)
    else
      match env.helmInit with
      | some e => .done ([], some ("Error initializing Helm: " ++ e))
      | none =>
        match repoArgsLoopGo env.config.helmRepoExtraArgs [] with
        | .crash m => .crash m
        | .done repoArgs =>
          match addReposLoop env.addRepo repoArgs env.config.chartRepos with
          | .crash m => .crash m
          | .done (some e) => .done ([], some e)
          | .done none =>
            if env.config.upgrade then
              match computeMergeBase env with
              | .error e => .done ([], some ("Error identifying merge base: " ++ e))
              | .ok _ =>
                .done (chartsLoop env.buildDependencies (FindValuesFilesForCI env)
                         action charts [] true)
            else
              .done (chartsLoop env.buildDependencies (FindValuesFilesForCI env)
                       action charts [] true)

/-- chart.go:286 LintCharts. -/
def LintCharts (env : Env) : RunOutcome (List TestResult × Option String) :=
  processCharts env (LintChart env)

/-- chart.go:291 InstallCharts. -/
def InstallCharts (env : Env) : RunOutcome (List TestResult × Option String) :=
  processCharts env (InstallChart env)

/-- chart.go:296 LintAndInstallCharts. -/
def LintAndInstallCharts (env : Env) : RunOutcome (List TestResult × Option String) :=
  processCharts env (LintAndInstallChart env)

/- ------------------------------------------------------------------ -/
/- Statement-side definitions                                          -/
/- ------------------------------------------------------------------ -/

/-- The sequence of chart roots the change-detection loop resolves, in
file order, exclusions and failed lookups skipped (spec 4.1); compared
against the loop by claim C4. -/
def resolvedDirs (excluded : List String)
    (lookup : List String → String → Except String String) (chartDirs : List String) :
    List String → List String
  | [] => []
  | file :: rest =>
    match goSplitN file '/' 3 with
    | _ :: second :: _ =>
      if StringSliceContains excluded second then resolvedDirs excluded lookup chartDirs rest
      else
        match lookup chartDirs (filepathDir file) with
        | .ok d => d :: resolvedDirs excluded lookup chartDirs rest
        | .error _ => resolvedDirs excluded lookup chartDirs rest
    | _ => resolvedDirs excluded lookup chartDirs rest

/-- The per-chart results of a completed processCharts loop: one action
result per selected chart, in selection order. -/
def runResults (env : Env) (action : String → List String → TestResult)
    (charts : List String) : List TestResult :=
  charts.map (fun c => action c (FindValuesFilesForCI env c))

/-- The aggregation of a completed run: the full result list plus an
aggregate error exactly when some result carries an error. -/
def aggregate (results : List TestResult) : List TestResult × Option String :=
  (results,
   if results.all (fun r => r.error.isNone) then none
   else some "Error processing charts")

/- ------------------------------------------------------------------ -/
/- Concrete environments used to instantiate the theorems              -/
/- ------------------------------------------------------------------ -/

/-- A configuration with every optional check off and no repositories. -/
def baseConfig : Config where
  processAllCharts := false
  charts := []
  chartDirs := ["charts"]
  excludedCharts := []
  chartRepos := []
  helmRepoExtraArgs := []
  upgrade := false
  nspace := ""
  releaseLabel := "app"
  buildId := ""
  remote := "origin"
  targetBranch := "master"
  checkVersionIncrement := false
  validateChartSchema := false
  validateYaml := false
  validateMaintainers := false
  chartYamlSchema := ""
  lintConf := ""

/-- An environment in which every collaborator call succeeds. -/
def baseEnv : Env where
  config := baseConfig
  helmInit := none
  addRepo := fun _ _ _ => none
  buildDependencies := fun _ => none
  lintWithValues := fun _ _ => none
  installWithValues := fun _ _ _ _ => none
  helmUpgrade := fun _ _ => none
  helmTest := fun _ _ => none
  fileExistsOnBranch := fun _ _ _ => true
  gitShow := fun _ _ _ => .ok "contents"
  addWorkingTree := none
  validateRepository := none
  mergeBase := fun _ _ => .ok "mb"
  listChangedFilesInDirs := fun _ _ => .ok []
  getUrlForRemote := fun _ => .ok "https://github.com/org/repo"
  waitForDeployments := fun _ _ => none
  yamale := fun _ _ => none
  yamlLint := fun _ _ => none
  listChildDirs := fun _ _ => .ok []
  lookupChartDir := fun _ _ => .error "no chart"
  readChartYaml := fun _ => .ok ⟨"1.1.0", false, [⟨"alice"⟩]⟩
  readChartYamlBytes := fun _ => .ok ⟨"1.0.0", false, [⟨"alice"⟩]⟩
  validateAccount := fun _ _ => none
  glob := fun _ => []
  createInstallParams := fun _ _ => ("rel", "ns")

/-- One explicitly selected chart, everything succeeding. -/
def envHappy : Env :=
  { baseEnv with config := { baseConfig with charts := ["chartA"] } }

/-- Like envHappy but dependency building fails for every chart. -/
def envDepsFail : Env :=
  { envHappy with buildDependencies := fun _ => some "boom" }

/-- Change-detection mode with no changed files; Helm init would fail if
it were ever invoked. -/
def envNoCharts : Env :=
  { baseEnv with helmInit := some "helm down" }

/-- A ChartRepos entry without the = separator. -/
def envRepoBad1 : Env :=
  { baseEnv with config := { baseConfig with charts := ["chartA"], chartRepos := ["badrepo"] } }

/-- A HelmRepoExtraArgs entry without the = separator. -/
def envRepoBad2 : Env :=
  { baseEnv with
    config := { baseConfig with charts := ["chartA"], helmRepoExtraArgs := ["badextra"] } }

/-- Old manifest version 1.2.0, new manifest version 1.3.0. -/
def envVersions : Env :=
  { baseEnv with
    readChartYamlBytes := fun _ => .ok ⟨"1.2.0", false, []⟩
    readChartYaml := fun _ => .ok ⟨"1.3.0", false, []⟩ }

/-- The chart manifest does not exist on the target branch. -/
def envNewChart : Env :=
  { baseEnv with fileExistsOnBranch := fun _ _ _ => false }

/-- Old version 1.0.0, new version 2.0.0: a breaking major bump. -/
def envBreaking : Env :=
  { baseEnv with
    readChartYamlBytes := fun _ => .ok ⟨"1.0.0", false, []⟩
    readChartYaml := fun _ => .ok ⟨"2.0.0", false, []⟩ }

/-- Reading the working-copy manifest fails. -/
def envBadNew : Env :=
  { baseEnv with readChartYaml := fun _ => .error "nope" }

/-- Installing any release fails; an explicit namespace is configured. -/
def envOldBroken : Env :=
  { baseEnv with
    config := { baseConfig with nspace := "testns" }
    installWithValues := fun _ _ _ _ => some "boom" }

/-- The changed-files example of the spec (8), plus a second file in
charts/foo to exercise deduplication. -/
def envChanged : Env :=
  { baseEnv with
    listChangedFilesInDirs := fun _ _ =>
      .ok ["charts/foo/templates/x.yaml", "charts/bar/Chart.yaml",
           "docs/readme.md", "charts/foo/values.yaml"]
    lookupChartDir := fun _ dir =>
      if dir = "charts/foo/templates" then .ok "charts/foo"
      else if dir = "charts/foo" then .ok "charts/foo"
      else if dir = "charts/bar" then .ok "charts/bar"
      else .error "no chart dir" }

/-- A deprecated chart that still declares a maintainer. -/
def envMaintDep : Env :=
  { baseEnv with readChartYaml := fun _ => .ok ⟨"1.0.0", true, [⟨"alice"⟩]⟩ }

/-- A deprecated chart with no maintainers. -/
def envMaintDepNone : Env :=
  { baseEnv with readChartYaml := fun _ => .ok ⟨"1.0.0", true, []⟩ }

/-- A non-deprecated chart with no maintainers. -/
def envMaintNone : Env :=
  { baseEnv with readChartYaml := fun _ => .ok ⟨"1.0.0", false, []⟩ }

/-- Upgrade testing enabled for one selected chart, everything passing. -/
def envPrevOk : Env :=
  { baseEnv with config := { baseConfig with charts := ["chartA"], upgrade := true } }

/-- Like envPrevOk, but adding the previous-revision worktree reports an
error and building dependencies for the previous revision of the chart
fails. -/
def envPrevFail : Env :=
  { envPrevOk with
    addWorkingTree := some "worktree add failed"
    buildDependencies := fun s =>
      if s = "ct_previous_revision/chartA" then some "prev dep boom" else none }

/- ------------------------------------------------------------------ -/
/- Helper lemmas                                                       -/
/- ------------------------------------------------------------------ -/

theorem stringSliceContains_iff (l : List String) (s : String) :
    StringSliceContains l s = true ↔ s ∈ l := by
  simp [StringSliceContains]

theorem chartsLoop_complete (bd : String → Option String) (valuesf : String → List String)
    (action : String → List String → TestResult) :
    ∀ (charts : List String) (acc : List TestResult) (flag : Bool),
      (∀ c ∈ charts, bd c = none) →
      chartsLoop bd valuesf action charts acc flag =
        (acc ++ charts.map (fun c => action c (valuesf c)),
         if flag && (charts.map (fun c => action c (valuesf c))).all (fun r => r.error.isNone)
         then none else some "Error processing charts") := by
  intro charts
  induction charts with
  | nil => intro acc flag _; simp [chartsLoop]
  | cons chart rest ih =>
    intro acc flag h
    have hbd := h chart (List.mem_cons_self _ _)
    simp only [chartsLoop, hbd]
    rw [ih _ _ (fun c hc => h c (List.mem_cons_of_mem _ hc))]
    simp [Bool.and_assoc]

theorem processCharts_complete (env : Env) (charts : List String)
    (repoArgs : List (String × List String)) (mb : String)
    (hsel : FindChartsToBeProcessed env = .ok charts)
    (hinit : env.helmInit = none)
    (hargs : repoArgsLoopGo env.config.helmRepoExtraArgs [] = .done repoArgs)
    (hadd : addReposLoop env.addRepo repoArgs env.config.chartRepos = .done none)
    (hmb : env.config.upgrade = true → computeMergeBase env = .ok mb)
    (hbd : ∀ c ∈ charts, env.buildDependencies c = none)
    (action : String → List String → TestResult) :
    processCharts env action = .done (aggregate (runResults env action charts)) := by
  have hloop := chartsLoop_complete env.buildDependencies (FindValuesFilesForCI env)
    action charts [] true hbd
  cases charts with
  | nil => simp [processCharts, hsel, aggregate, runResults]
  | cons c cs =>
    by_cases hup : env.config.upgrade = true
    · simp [processCharts, hsel, hinit, hargs, hadd, hup, hmb hup, hloop,
        aggregate, runResults]
    · simp [processCharts, hsel, hinit, hargs, hadd, hup, hloop, aggregate, runResults]

/- ------------------------------------------------------------------ -/
/- Claim C7                                                            -/
/- ------------------------------------------------------------------ -/

/-- Claim C7 (confirmed): if chart selection yields zero charts,
processCharts returns an empty result list and no error.  The
environment — in particular the outcome of Helm initialization,
repository registration, and every pipeline collaborator — is arbitrary,
so none of them can have been consulted. -/
theorem c7_empty_selection (env : Env) (action : String → List String → TestResult)
    (hsel : FindChartsToBeProcessed env = .ok []) :
    processCharts env action = .done ([], none) := by
  simp [processCharts, hsel]

/-- Witness for C7: a change-detection run with no changed files returns
([], none) even though Helm initialization would fail if invoked. -/
theorem c7_empty_selection_witness :
    processCharts envNoCharts (LintChart envNoCharts) = .done ([], none) :=
  c7_empty_selection envNoCharts (LintChart envNoCharts) rfl

/- ------------------------------------------------------------------ -/
/- Claim C9                                                            -/
/- ------------------------------------------------------------------ -/

/-- Claim C9 (confirmed): with a non-empty chart set, a ChartRepos entry
(or a HelmRepoExtraArgs entry) without the = separator makes
processCharts panic with an index-out-of-range on the split result
(repoSlice[1], chart.go:228/235) instead of returning an error. -/
theorem c9_missing_separator_crashes :
    InstallCharts envRepoBad1 = .crash "runtime error: index out of range" ∧
    LintCharts envRepoBad2 = .crash "runtime error: index out of range" :=
  ⟨rfl, rfl⟩

/- ------------------------------------------------------------------ -/
/- Claim C1                                                            -/
/- ------------------------------------------------------------------ -/

/-- Counterexample to C1 as stated: a run in which dependency building
fails for the selected chart chartA returns a non-nil error although the
returned result list is empty — no per-chart TestResult carries an error
and the full per-chart list (one entry for chartA) is not returned. -/
theorem c1_counterexample :
    FindChartsToBeProcessed envDepsFail = .ok ["chartA"] ∧
    LintCharts envDepsFail =
      .done ([], some "Error building dependencies for chart chartA: boom") ∧
    (([] : List TestResult).all (fun r => r.error.isNone)) = true :=
  ⟨rfl, rfl, rfl⟩

/-- Claim C1 (corrected): for runs of LintCharts, InstallCharts and
LintAndInstallCharts that do not abort early — chart selection, Helm
initialization, repository registration, the merge-base computation
(when upgrade testing is on) and the dependency build of every selected chart
succeed — the run returns the full per-chart result list (one action
result per selected chart in order) together with an aggregate error
that is nil exactly when no per-chart result carries an error.  Runs
that abort early return a non-nil error with an empty list instead. -/
theorem c1_aggregate_error_iff (env : Env) (charts : List String)
    (repoArgs : List (String × List String)) (mb : String)
    (hsel : FindChartsToBeProcessed env = .ok charts)
    (hinit : env.helmInit = none)
    (hargs : repoArgsLoopGo env.config.helmRepoExtraArgs [] = .done repoArgs)
    (hadd : addReposLoop env.addRepo repoArgs env.config.chartRepos = .done none)
    (hmb : env.config.upgrade = true → computeMergeBase env = .ok mb)
    (hbd : ∀ c ∈ charts, env.buildDependencies c = none) :
    (∀ results : List TestResult,
      (aggregate results).2 = none ↔ ∀ r ∈ results, r.error = none) ∧
    LintCharts env = .done (aggregate (runResults env (LintChart env) charts)) ∧
    InstallCharts env = .done (aggregate (runResults env (InstallChart env) charts)) ∧
    LintAndInstallCharts env =
      .done (aggregate (runResults env (LintAndInstallChart env) charts)) := by
  refine ⟨?_, ?_, ?_, ?_⟩
  · intro results
    cases hall : results.all (fun r => r.error.isNone) with
    | true =>
      have h2 : ∀ r ∈ results, r.error = none := by
        intro r hr
        simpa using List.all_eq_true.mp hall r hr
      constructor
      · intro _; exact h2
      · intro _; simp [aggregate, hall]
    | false =>
      have hnot : ¬ ∀ r ∈ results, r.error = none := by
        intro h2
        have ht : results.all (fun r => r.error.isNone) = true := by
          simp only [List.all_eq_true, Option.isNone_iff_eq_none]
          exact h2
        rw [hall] at ht
        exact Bool.false_ne_true ht
      simp [aggregate, hall, hnot]
  · exact processCharts_complete env charts repoArgs mb hsel hinit hargs hadd hmb hbd
      (LintChart env)
  · exact processCharts_complete env charts repoArgs mb hsel hinit hargs hadd hmb hbd
      (InstallChart env)
  · exact processCharts_complete env charts repoArgs mb hsel hinit hargs hadd hmb hbd
      (LintAndInstallChart env)

/-- Witness for the corrected C1: the happy run over one chart returns
the full one-entry result list and no aggregate error. -/
theorem c1_aggregate_error_iff_witness :
    LintCharts envHappy = .done ([{ chart := "chartA", error := none }], none) := by
  have h := (c1_aggregate_error_iff envHappy ["chartA"] [] "mb" rfl rfl rfl rfl
    (fun _ => rfl) (fun _ _ => rfl)).2.1
  exact h.trans (by rfl)

/- ------------------------------------------------------------------ -/
/- Claim C10                                                           -/
/- ------------------------------------------------------------------ -/

theorem chartsLoop_congr (bd1 bd2 : String → Option String)
    (valuesf : String → List String) (action : String → List String → TestResult) :
    ∀ (charts : List String) (acc : List TestResult) (flag : Bool),
      (∀ c ∈ charts, bd1 c = bd2 c) →
      chartsLoop bd1 valuesf action charts acc flag =
        chartsLoop bd2 valuesf action charts acc flag := by
  intro charts
  induction charts with
  | nil => intro acc flag _; rfl
  | cons c cs ih =>
    intro acc flag h
    have hc := h c (List.mem_cons_self _ _)
    simp only [chartsLoop, hc]
    cases hbd : bd2 c with
    | some e => rfl
    | none => exact ih _ _ (fun x hx => h x (List.mem_cons_of_mem _ hx))

theorem processCharts_prep_invariant (env : Env) (wt : Option String)
    (bd2 : String → Option String) (action : String → List String → TestResult)
    (hbd : ∀ charts, FindChartsToBeProcessed env = .ok charts →
      ∀ c ∈ charts, env.buildDependencies c = bd2 c) :
    processCharts { env with addWorkingTree := wt, buildDependencies := bd2 } action
      = processCharts env action := by
  have hsel : FindChartsToBeProcessed { env with addWorkingTree := wt, buildDependencies := bd2 }
      = FindChartsToBeProcessed env := rfl
  have hvf : FindValuesFilesForCI { env with addWorkingTree := wt, buildDependencies := bd2 }
      = FindValuesFilesForCI env := rfl
  have hmb : computeMergeBase { env with addWorkingTree := wt, buildDependencies := bd2 }
      = computeMergeBase env := rfl
  unfold processCharts
  rw [hsel, hvf, hmb]
  cases hF : FindChartsToBeProcessed env with
  | error e => rfl
  | ok charts =>
    have hloop := chartsLoop_congr bd2 env.buildDependencies (FindValuesFilesForCI env)
      action charts [] true (fun c hc => (hbd charts hF c hc).symm)
    dsimp only
    rw [hloop]

/-- Claim C10 (confirmed): when upgrade testing is enabled, failures
while preparing the previous revision never abort the run.  The run
outcome of every processCharts-driven mode is unchanged for every value
of the discarded AddWorkingTree error and for every change to the
BuildDependencies outcomes that agrees on the selected charts themselves
(the previous-revision paths ct_previous_revision/... are disjoint from
the selected chart paths, and their build errors are only printed). -/
theorem c10_prep_failures_ignored (env : Env) (wt : Option String)
    (bd2 : String → Option String)
    (hbd : ∀ charts, FindChartsToBeProcessed env = .ok charts →
      ∀ c ∈ charts, env.buildDependencies c = bd2 c) :
    LintCharts { env with addWorkingTree := wt, buildDependencies := bd2 }
      = LintCharts env ∧
    InstallCharts { env with addWorkingTree := wt, buildDependencies := bd2 }
      = InstallCharts env ∧
    LintAndInstallCharts { env with addWorkingTree := wt, buildDependencies := bd2 }
      = LintAndInstallCharts env := by
  refine ⟨?_, ?_, ?_⟩
  · have h1 : LintCharts { env with addWorkingTree := wt, buildDependencies := bd2 }
        = processCharts { env with addWorkingTree := wt, buildDependencies := bd2 }
            (LintChart env) := rfl
    exact h1.trans (processCharts_prep_invariant env wt bd2 (LintChart env) hbd)
  · have h1 : InstallCharts { env with addWorkingTree := wt, buildDependencies := bd2 }
        = processCharts { env with addWorkingTree := wt, buildDependencies := bd2 }
            (InstallChart env) := rfl
    exact h1.trans (processCharts_prep_invariant env wt bd2 (InstallChart env) hbd)
  · have h1 : LintAndInstallCharts { env with addWorkingTree := wt, buildDependencies := bd2 }
        = processCharts { env with addWorkingTree := wt, buildDependencies := bd2 }
            (LintAndInstallChart env) := rfl
    exact h1.trans (processCharts_prep_invariant env wt bd2 (LintAndInstallChart env) hbd)

/-- Witness for C10: an upgrade-enabled run in which adding the
previous-revision worktree errors and the previous-revision dependency
build of the chart fails produces exactly the outcome of the run in
which both succeed. -/
theorem c10_prep_failures_ignored_witness :
    InstallCharts envPrevFail = InstallCharts envPrevOk :=
  (c10_prep_failures_ignored envPrevOk (some "worktree add failed")
    (fun s => if s = "ct_previous_revision/chartA" then some "prev dep boom" else none)
    (by
      intro charts hch c hc
      have h2 : (Except.ok ["chartA"] : Except String (List String)) = .ok charts := hch
      injection h2 with h3
      subst h3
      simp only [List.mem_singleton] at hc
      subst hc
      decide)).2.1

/- ------------------------------------------------------------------ -/
/- Claim C2                                                            -/
/- ------------------------------------------------------------------ -/

theorem breakingChangeAllowed_some_fst (o n : String) (b : Bool) (e : String)
    (h : BreakingChangeAllowed o n = (b, some e)) : b = false := by
  unfold BreakingChangeAllowed at h
  cases ho : parseSemVer o with
  | error e2 =>
    cases hn : parseSemVer n with
    | error e3 =>
      rw [ho, hn] at h
      have h2 : ((false, some e2) : Bool × Option String) = (b, some e) := h
      injection h2 with hb hs
      exact hb.symm
    | ok vn =>
      rw [ho, hn] at h
      have h2 : ((false, some e2) : Bool × Option String) = (b, some e) := h
      injection h2 with hb hs
      exact hb.symm
  | ok vo =>
    cases hn : parseSemVer n with
    | error e2 =>
      rw [ho, hn] at h
      have h2 : ((false, some e2) : Bool × Option String) = (b, some e) := h
      injection h2 with hb hs
      exact hb.symm
    | ok vn =>
      rw [ho, hn] at h
      have h2 : (if vo.major ≠ vn.major then ((true : Bool), (none : Option String))
          else if vo.major = 0 ∧ vo.minor ≠ vn.minor then (true, none)
          else (false, none)) = (b, some e) := h
      split_ifs at h2 <;> (injection h2 with hb hs; exact Option.noConfusion hs)

theorem checkBreakingChangeAllowed_some (env : Env) (chart : String) (e : String)
    (hne : GetOldChartVersion env chart ≠ .ok "")
    (hsnd : (checkBreakingChangeAllowed env chart).2 = some e) :
    checkBreakingChangeAllowed env chart = (false, some e) := by
  cases hold : GetOldChartVersion env chart with
  | error e2 =>
    simp only [checkBreakingChangeAllowed, hold] at hsnd ⊢
    injection hsnd with h3
    subst h3
    rfl
  | ok v =>
    have hv : ¬ v = "" := fun h => hne (h ▸ hold)
    cases hnew : GetNewChartVersion env chart with
    | error e2 =>
      simp only [checkBreakingChangeAllowed, hold, if_neg hv, hnew] at hsnd ⊢
      injection hsnd with h3
      subst h3
      rfl
    | ok nv =>
      rcases hba : BreakingChangeAllowed v nv with ⟨b, err⟩
      simp only [checkBreakingChangeAllowed, hold, if_neg hv, hnew, hba] at hsnd ⊢
      subst hsnd
      rw [breakingChangeAllowed_some_fst v nv b e hba]

/-- Claim C2 (confirmed): whenever checkBreakingChangeAllowed reports
allowed=true, UpgradeChart skips upgrade testing and returns a success
result for the chart (the collaborator outcomes for install, upgrade and
test are universally quantified, so none of them is consulted); whenever
it returns an error in a case other than the chart having no previous
revision, UpgradeChart records that error as a hard failure for the chart.
util.BreakingChangeAllowed is modelled from the spec (4.2). -/
theorem c2_breaking_change_gate (env : Env) (chart : String) :
    ((checkBreakingChangeAllowed env chart).1 = true →
      UpgradeChart env chart = { chart := chart, error := none }) ∧
    (∀ e : String, GetOldChartVersion env chart ≠ .ok "" →
      (checkBreakingChangeAllowed env chart).2 = some e →
      UpgradeChart env chart = { chart := chart, error := some e }) := by
  constructor
  · intro h
    simp [UpgradeChart, h]
  · intro e hne hsnd
    have h := checkBreakingChangeAllowed_some env chart e hne hsnd
    simp [UpgradeChart, h]

/-- Witness for C2: a major bump 1.0.0 to 2.0.0 makes UpgradeChart skip
with success; a failing read of the new manifest is recorded as the
hard failure for the chart. -/
theorem c2_breaking_change_gate_witness :
    UpgradeChart envBreaking "chartA" = { chart := "chartA", error := none } ∧
    UpgradeChart envBadNew "chartA" =
      { chart := "chartA", error := some "Error reading new chart version: nope" } := by
  constructor
  · exact (c2_breaking_change_gate envBreaking "chartA").1 (by decide)
  · exact (c2_breaking_change_gate envBadNew "chartA").2
      "Error reading new chart version: nope"
      (by intro h; injection h with h2; exact absurd h2 (by decide))
      (by decide)

/- ------------------------------------------------------------------ -/
/- Claim C3                                                            -/
/- ------------------------------------------------------------------ -/

/-- Claim C3 (confirmed): in the per-values-file step of doUpgrade, a
failure of the old-revision install or of the old-revision test yields
no error when oldMustPass is false (the upgrade and new-revision test
are not attempted: the step returns none for every outcome of the
Upgrade and Test collaborators, which the hypotheses leave arbitrary)
and propagates when oldMustPass is true; a failure of the upgrade step
or of the new-revision test propagates for either value of oldMustPass;
and a failing first values file makes doUpgrade return that error. -/
theorem c3_doUpgrade_tolerance (env : Env) (oldChart vf e ns rel sel : String)
    (hcfg : generateInstallConfig env oldChart = (ns, rel, sel)) :
    ((env.installWithValues oldChart vf ns rel = some e ∨
      (env.installWithValues oldChart vf ns rel = none ∧
        testRelease env rel ns sel true = some e)) →
      doUpgradeStep env oldChart false vf = none ∧
      doUpgradeStep env oldChart true vf = some e) ∧
    (env.installWithValues oldChart vf ns rel = none →
      testRelease env rel ns sel true = none →
      env.helmUpgrade oldChart rel = some e →
      ∀ b : Bool, doUpgradeStep env oldChart b vf = some e) ∧
    (env.installWithValues oldChart vf ns rel = none →
      testRelease env rel ns sel true = none →
      env.helmUpgrade oldChart rel = none →
      testRelease env rel ns sel false = some e →
      ∀ b : Bool, doUpgradeStep env oldChart b vf = some e) ∧
    (∀ (newChart : String) (b : Bool) (rest : List String),
      effectiveValues (FindValuesFilesForCI env oldChart) = vf :: rest →
      doUpgradeStep env oldChart b vf = some e →
      doUpgrade env oldChart newChart b = some e) := by
  refine ⟨?_, ?_, ?_, ?_⟩
  · rintro (hi | ⟨hi, ht⟩)
    · exact ⟨by simp [doUpgradeStep, hcfg, hi], by simp [doUpgradeStep, hcfg, hi]⟩
    · exact ⟨by simp [doUpgradeStep, hcfg, hi, ht], by simp [doUpgradeStep, hcfg, hi, ht]⟩
  · intro hi ht hu b
    simp [doUpgradeStep, hcfg, hi, ht, hu]
  · intro hi ht hu htn b
    simp [doUpgradeStep, hcfg, hi, ht, hu, htn]
  · intro newChart b rest hvals hstep
    simp [doUpgrade, hvals, doUpgradeLoop, hstep]

/-- Witness for C3: a failing old-revision install is tolerated with
oldMustPass=false and propagated with oldMustPass=true. -/
theorem c3_doUpgrade_tolerance_witness :
    doUpgradeStep envOldBroken "oldchart" false "" = none ∧
    doUpgradeStep envOldBroken "oldchart" true "" = some "boom" :=
  (c3_doUpgrade_tolerance envOldBroken "oldchart" "" "boom" "testns" "rel" "app=rel"
    rfl).1 (Or.inl rfl)

/- ------------------------------------------------------------------ -/
/- Claim C4                                                            -/
/- ------------------------------------------------------------------ -/

theorem changedDirsLoop_eq (excluded : List String)
    (lookup : List String → String → Except String String) (chartDirs : List String) :
    ∀ (files acc : List String),
      changedDirsLoop excluded lookup chartDirs files acc =
        dedupInto acc (resolvedDirs excluded lookup chartDirs files) := by
  intro files
  induction files with
  | nil => intro acc; rfl
  | cons file rest ih =>
    intro acc
    simp only [changedDirsLoop, resolvedDirs]
    cases goSplitN file '/' 3 with
    | nil => exact ih acc
    | cons p1 ps =>
      cases ps with
      | nil => exact ih acc
      | cons second ps2 =>
        by_cases hex : StringSliceContains excluded second = true
        · simp only [hex, if_true]
          exact ih acc
        · simp only [Bool.not_eq_true] at hex
          simp only [hex, Bool.false_eq_true, if_false]
          cases hlk : lookup chartDirs (filepathDir file) with
          | ok d =>
            simp only [dedupInto]
            by_cases hc : StringSliceContains acc d = true
            · simp only [hc, if_true]
              exact ih acc
            · simp only [Bool.not_eq_true] at hc
              simp only [hc, Bool.false_eq_true, if_false]
              exact ih (acc ++ [d])
          | error e2 => exact ih acc

theorem dedupInto_nodup : ∀ (l acc : List String), acc.Nodup → (dedupInto acc l).Nodup := by
  intro l
  induction l with
  | nil => intro acc h; exact h
  | cons x xs ih =>
    intro acc h
    by_cases hc : StringSliceContains acc x = true
    · simp only [dedupInto, hc, if_true]
      exact ih acc h
    · have hx : x ∉ acc := fun hm => hc ((stringSliceContains_iff acc x).mpr hm)
      simp only [Bool.not_eq_true] at hc
      simp only [dedupInto, hc, Bool.false_eq_true, if_false]
      refine ih (acc ++ [x]) ?_
      simp [List.nodup_append, h, hx]

/-- Claim C4 (confirmed): with the merge base and the diff succeeding,
ComputeChangedChartDirectories returns — without error, whatever the
per-file lookups do — exactly the resolved chart directories,
deduplicated in first-seen order: a file with fewer than two path
segments or an excluded second segment is skipped, and a file whose
directory resolves to no valid chart root is skipped rather than
failing the run.  util.StringSliceContains is modelled from the spec. -/
theorem c4_changed_chart_directories (env : Env) (mb : String) (files : List String)
    (hmb : computeMergeBase env = .ok mb)
    (hdiff : env.listChangedFilesInDirs mb env.config.chartDirs = .ok files) :
    ComputeChangedChartDirectories env =
      .ok (dedupFirstSeen (resolvedDirs env.config.excludedCharts env.lookupChartDir
            env.config.chartDirs files)) ∧
    (∀ l : List String, (dedupFirstSeen l).Nodup) := by
  constructor
  · simp [ComputeChangedChartDirectories, hmb, hdiff, dedupFirstSeen, changedDirsLoop_eq]
  · intro l
    exact dedupInto_nodup l [] List.nodup_nil

/-- Witness for C4: the changed-files example of the spec (8), with a
fourth file mapping again to charts/foo and one orphaned file, yields
exactly charts/foo then charts/bar. -/
theorem c4_changed_chart_directories_witness :
    ComputeChangedChartDirectories envChanged = .ok ["charts/foo", "charts/bar"] := by
  have h := (c4_changed_chart_directories envChanged "mb"
    ["charts/foo/templates/x.yaml", "charts/bar/Chart.yaml",
     "docs/readme.md", "charts/foo/values.yaml"] rfl rfl).1
  exact h.trans (by rfl)

/- ------------------------------------------------------------------ -/
/- Claim C5                                                            -/
/- ------------------------------------------------------------------ -/

theorem compareSemVer_neg_iff (a b : SemVer) : compareSemVer a b < 0 ↔ semverLt a b := by
  simp only [compareSemVer, semverLt]
  split_ifs <;> omega

/-- Claim C5 (confirmed): when both manifest versions exist and parse,
CheckVersionIncrement accepts exactly the strictly increasing pairs: it
returns no error iff old < new in the semantic-version order, hence an
error whenever new is equal to or less than old.  util.CompareVersions
and the version parser are modelled from the spec (4.2). -/
theorem c5_version_increment (env : Env) (chart oldV newV : String) (vo vn : SemVer)
    (holdv : GetOldChartVersion env chart = .ok oldV) (hne : ¬ oldV = "")
    (hnewv : GetNewChartVersion env chart = .ok newV)
    (hpo : parseSemVer oldV = .ok vo) (hpn : parseSemVer newV = .ok vn) :
    CheckVersionIncrement env chart = none ↔ semverLt vo vn := by
  have hcv : CompareVersions oldV newV = .ok (compareSemVer vo vn) := by
    simp [CompareVersions, hpo, hpn]
  simp only [CheckVersionIncrement, holdv, if_neg hne, hnewv, hcv]
  by_cases hge : compareSemVer vo vn ≥ 0
  · simp only [hge, if_true]
    constructor
    · intro h
      exact Option.noConfusion h
    · intro h
      have := (compareSemVer_neg_iff vo vn).mpr h
      omega
  · simp only [hge, if_false]
    constructor
    · intro _
      exact (compareSemVer_neg_iff vo vn).mp (by omega)
    · intro _
      trivial

/-- Witness for C5: old 1.2.0, new 1.3.0 passes the increment check. -/
theorem c5_version_increment_witness :
    CheckVersionIncrement envVersions "chartA" = none :=
  (c5_version_increment envVersions "chartA" "1.2.0" "1.3.0" ⟨1, 2, 0⟩ ⟨1, 3, 0⟩
    rfl (by decide) rfl rfl rfl).mpr (Or.inr ⟨rfl, Or.inl (by decide)⟩)

/- ------------------------------------------------------------------ -/
/- Claim C6                                                            -/
/- ------------------------------------------------------------------ -/

/-- Claim C6 (confirmed): for a chart whose Chart.yaml does not exist on
the target branch, CheckVersionIncrement returns no error,
checkBreakingChangeAllowed returns allowed=true with the informational
"chart has no previous revision" error, and UpgradeChart returns a
success result for the chart (the informational error is not recorded). -/
theorem c6_new_chart (env : Env) (chart : String)
    (habsent : env.fileExistsOnBranch (pathJoin chart "Chart.yaml")
      env.config.remote env.config.targetBranch = false) :
    CheckVersionIncrement env chart = none ∧
    checkBreakingChangeAllowed env chart = (true, some "chart has no previous revision") ∧
    UpgradeChart env chart = { chart := chart, error := none } := by
  have holdv : GetOldChartVersion env chart = .ok "" := by
    simp [GetOldChartVersion, habsent]
  have hbca : checkBreakingChangeAllowed env chart =
      (true, some "chart has no previous revision") := by
    simp [checkBreakingChangeAllowed, holdv]
  refine ⟨?_, hbca, ?_⟩
  · simp [CheckVersionIncrement, holdv]
  · simp [UpgradeChart, hbca]

/-- Witness for C6: a concrete environment whose target branch lacks the
manifest. -/
theorem c6_new_chart_witness :
    CheckVersionIncrement envNewChart "chartA" = none ∧
    checkBreakingChangeAllowed envNewChart "chartA" =
      (true, some "chart has no previous revision") ∧
    UpgradeChart envNewChart "chartA" = { chart := "chartA", error := none } :=
  c6_new_chart envNewChart "chartA" rfl

/- ------------------------------------------------------------------ -/
/- Claim C8                                                            -/
/- ------------------------------------------------------------------ -/

theorem validateMaintainersLoop_none_iff (validate : String → String → Option String)
    (url : String) : ∀ ms : List Maintainer,
    (validateMaintainersLoop validate url ms = none ↔
      ∀ m ∈ ms, validate url m.name = none) := by
  intro ms
  induction ms with
  | nil => simp [validateMaintainersLoop]
  | cons m rest ih =>
    simp only [validateMaintainersLoop]
    cases hv : validate url m.name with
    | some e => simp [hv]
    | none => simp [hv, ih]

/-- Claim C8 (confirmed): ValidateMaintainers errors on every deprecated
chart with at least one maintainer, accepts a deprecated chart with no
maintainers, errors on every non-deprecated chart with no maintainers,
and for a non-deprecated chart with maintainers succeeds exactly when
the remote URL is obtained and every maintainer name validates. -/
theorem c8_validate_maintainers (env : Env) (chart : String) (cy : ChartYaml)
    (hread : env.readChartYaml chart = .ok cy) :
    (cy.deprecated = true → cy.maintainers ≠ [] →
      ValidateMaintainers env chart = some "Deprecated chart must not have maintainers") ∧
    (cy.deprecated = true → cy.maintainers = [] →
      ValidateMaintainers env chart = none) ∧
    (cy.deprecated = false → cy.maintainers = [] →
      ValidateMaintainers env chart = some "Chart does not have maintainers") ∧
    (cy.deprecated = false → cy.maintainers ≠ [] →
      (ValidateMaintainers env chart = none ↔
        ∃ url, env.getUrlForRemote env.config.remote = .ok url ∧
          ∀ m ∈ cy.maintainers, env.validateAccount url m.name = none)) := by
  refine ⟨?_, ?_, ?_, ?_⟩
  · intro hdep hm
    have hlen : cy.maintainers.length > 0 := List.length_pos.mpr hm
    simp [ValidateMaintainers, hread, hdep, hlen]
  · intro hdep hm
    simp [ValidateMaintainers, hread, hdep, hm]
  · intro hdep hm
    simp [ValidateMaintainers, hread, hdep, hm]
  · intro hdep hm
    have hlen : ¬ cy.maintainers.length = 0 := by
      simpa [List.length_eq_zero] using hm
    cases hurl : env.getUrlForRemote env.config.remote with
    | error e =>
      simp [ValidateMaintainers, hread, hdep, hlen, hurl]
    | ok url =>
      simp [ValidateMaintainers, hread, hdep, hlen, hurl,
        validateMaintainersLoop_none_iff]

/-- Witness for C8: the three decision cases of maintainer validation
plus a passing non-deprecated chart. -/
theorem c8_validate_maintainers_witness :
    ValidateMaintainers envMaintDep "chartA" =
      some "Deprecated chart must not have maintainers" ∧
    ValidateMaintainers envMaintDepNone "chartA" = none ∧
    ValidateMaintainers envMaintNone "chartA" = some "Chart does not have maintainers" ∧
    ValidateMaintainers baseEnv "chartA" = none := by
  refine ⟨?_, ?_, ?_, ?_⟩
  · exact (c8_validate_maintainers envMaintDep "chartA" ⟨"1.0.0", true, [⟨"alice"⟩]⟩ rfl).1
      rfl (by simp)
  · exact (c8_validate_maintainers envMaintDepNone "chartA" ⟨"1.0.0", true, []⟩ rfl).2.1
      rfl rfl
  · exact (c8_validate_maintainers envMaintNone "chartA" ⟨"1.0.0", false, []⟩ rfl).2.2.1
      rfl rfl
  · exact ((c8_validate_maintainers baseEnv "chartA" ⟨"1.1.0", false, [⟨"alice"⟩]⟩ rfl).2.2.2
      rfl (by simp)).mpr ⟨"https://github.com/org/repo", rfl, fun m _ => rfl⟩

end ChartTesting
